import Mathlib

/-!
# Verification of the polycache cache-coordination core

Shallow embedding of the polycache sources (`caching`, `multiCaching`,
`resolveTTL`, and the LRU store) and proofs about the behaviour the
specification claims.

Conventions of the embedding:
* JS `undefined` (the "none" sentinel) is `Option.none`; cached payloads of
  type `V` are otherwise opaque.
* Millisecond TTLs are modelled as `Int` (the claims only involve integral
  values; negative values are the store's "no expiry / unknown" sentinels).
* A promise that settles is `Except E V`: `.ok` for fulfilment, `.error` for
  rejection.  A producer (`fn`) passed to `wrap` is pure in the embedding, so
  it is represented by the settled outcome it yields each time it is invoked;
  the number of invocations is tracked explicitly.
* Fire-and-forget work (`promise.then()` without `await`) is recorded as a
  list of pending background tasks; running such a task is a separate step,
  so "returned without awaiting background work" is visible as the foreground
  store state being unchanged by those tasks.
* The key-scoped coalescing primitive (`promise-coalesce`) is an external
  collaborator; a single sequential call, which is what the claims below
  concern, passes straight through it.
-/

namespace Polycache

/-- TTL specification `WrapTTL<T> = Milliseconds | ((v: T) => Milliseconds)` (src/types.ts). -/
inductive WrapTTL (V : Type) where
  | ms (t : Int)
  | fn (f : V → Int)

/-- Source `resolveTTL = (item, ttl?) => typeof ttl === 'function' ? ttl(item) : ttl`
(src/utils.ts).  An absent `ttl` resolves to `none` (undefined). -/
def resolveTTL {V : Type} (item : V) : Option (WrapTTL V) → Option Int
  | none => none
  | some (.ms t) => some t
  | some (.fn f) => some (f item)

/-- Observable state of a backing store as the single-tier core sees it:
the value map read by `store.get`, the remaining-TTL oracle read by
`store.ttl` (store-internal timing, treated as part of the environment), and
the trace of `store.set` calls issued so far (key, value, ttl argument). -/
structure StoreState (V : Type) where
  data : String → Option V
  remTTL : String → Int
  writes : List (String × V × Option Int)

/-- Effect of `store.set(key, value, ttl)` on the observable state. -/
def storeSet {V : Type} (s : StoreState V) (key : String) (v : V)
    (ttl : Option Int) : StoreState V :=
  { s with
    data := fun k => if k = key then some v else s.data k
    writes := s.writes ++ [(key, v, ttl)] }

/-- A background task spawned (not awaited) by single-tier `wrap`:
`fn().then((result) => store.set(key, result, cacheTTL))`. -/
structure RefreshTask where
  key : String
  cacheTTL : Option Int

/-- Outcome of one single-tier `wrap` call: the settled result returned to
the caller, the store state after all *awaited* operations, the number of
foreground producer invocations, and the background tasks spawned. -/
structure WrapOut (V E : Type) where
  result : Except E V
  store : StoreState V
  fgCalls : Nat
  bg : List RefreshTask

/-- Single-tier `caching(store, cacheOptions).wrap(key, fn, options)`
(src/caching.ts).  `rt` is `cacheOptions?.refreshThreshold`; the source
guards on its JS truthiness, so a configured threshold of `0` behaves like an
absent one.  The miss branch awaits `fn()` and, on success, awaits
`store.set(key, result, resolveTTL(result, options?.ttl))`; on a hit with a
truthy threshold it compares `remainingTtl !== -1 && remainingTtl < rt` and,
when that holds, spawns the refresh task without awaiting it. -/
def cachingWrap {V E : Type} (rt : Option Int) (key : String)
    (fn : Except E V) (ttlSpec : Option (WrapTTL V)) (s : StoreState V) :
    WrapOut V E :=
  match s.data key with
  | none =>
    match fn with
    | .error e => ⟨.error e, s, 1, []⟩
    | .ok result =>
      ⟨.ok result, storeSet s key result (resolveTTL result ttlSpec), 1, []⟩
  | some value =>
    match rt with
    | none => ⟨.ok value, s, 0, []⟩
    | some threshold =>
      if threshold = 0 then ⟨.ok value, s, 0, []⟩
      else
        let cacheTTL := resolveTTL value ttlSpec
        let remainingTtl := s.remTTL key
        if remainingTtl ≠ -1 ∧ remainingTtl < threshold then
          ⟨.ok value, s, 0, [⟨key, cacheTTL⟩]⟩
        else ⟨.ok value, s, 0, []⟩

/-- Running a spawned refresh task
`fn().then((result) => store.set(key, result, cacheTTL))` (src/caching.ts).
The second component is the trace of diagnostic/log output the task emits:
the source attaches no rejection handler and contains no logging call, so a
rejected `fn()` leaves the store untouched and emits nothing. -/
def runRefresh {V E : Type} (fn : Except E V) (task : RefreshTask)
    (s : StoreState V) : StoreState V × List String :=
  match fn with
  | .ok result => (storeSet s task.key result task.cacheTTL, [])
  | .error _ => (s, [])

/-! ## Tiered cache (`multiCaching`, src/multi-caching.ts) -/

/-- One member of the tier list: its observable store state plus its failure
mode on the read path (`getFails = some e` models a tier whose reads throw
`e`, the "tier unavailability" collaborator behaviour of the spec). -/
structure Tier (V E : Type) where
  store : StoreState V
  getFails : Option E

/-- Read `cache.get(key)` of one tier as called by the tiered code: it either
throws or resolves to the store's value for the key. -/
def tierGet {V E : Type} (t : Tier V E) (key : String) : Except E (Option V) :=
  match t.getFails with
  | some e => .error e
  | none => .ok (t.store.data key)

/-- Batch read `cache.store.getMany(...keys)` of one tier: throws when the tier is
broken, otherwise returns the positionally aligned values (the LRU store
implements it as `args.map((x) => lruCache.get(x))`). -/
def tierGetMany {V E : Type} (t : Tier V E) (keys : List String) :
    Except E (List (Option V)) :=
  match t.getFails with
  | some e => .error e
  | none => .ok (keys.map t.store.data)

/-- Tiered read `multiCaching(caches).get(key)`: walk the tiers in order, return the
first defined value, swallow read errors (`try { ... } catch (e) {}`),
fall off the end with undefined. -/
def multiGet {V E : Type} (ts : List (Tier V E)) (key : String) : Option V :=
  match ts with
  | [] => none
  | t :: rest =>
    match tierGet t key with
    | .ok (some v) => some v
    | _ => multiGet rest key

/-- The lookup loop inside `multiCaching(caches).wrap`: index `i` and value
of the first tier whose `get` resolves to a defined value (read errors
swallowed), or `none` when every tier throws or misses. -/
def findTier {V E : Type} (ts : List (Tier V E)) (key : String) :
    Option (Nat × V) :=
  match ts with
  | [] => none
  | t :: rest =>
    match tierGet t key with
    | .ok (some v) => some (0, v)
    | _ => (findTier rest key).map (fun p => (p.1 + 1, p.2))

/-- A background task spawned (not awaited) by tiered `wrap` on a hit at
tier index `i`: the promotion writes `caches.slice(0, i).map((cache) =>
cache.set(key, value, cacheTTL))` and the re-wrap
`caches[i].wrap(key, fn, options)`. -/
inductive MultiBgTask (V : Type) where
  | backfill (idx : Nat) (key : String) (value : V) (cacheTTL : Option Int)
  | rewrap (idx : Nat) (key : String)

/-- Outcome of one tiered `wrap` call: settled result, tier states after all
*awaited* operations, foreground producer invocation count, and the spawned
background tasks. -/
structure MultiWrapOut (V E : Type) where
  result : Except E V
  tiers : List (Tier V E)
  fgCalls : Nat
  bg : List (MultiBgTask V)

/-- Tiered `multiCaching(caches).wrap(key, fn, options)` (src/multi-caching.ts).
Miss path: await `fn()`, resolve the TTL against its result, await the
fan-out `set` to every tier, return the result (producer rejection
propagates before any write).  Hit at index `i`: resolve the TTL against the
found value, spawn the backfill of tiers `0..i-1` and the re-wrap of tier
`i` without awaiting them, and return the found value. -/
def multiWrap {V E : Type} (ts : List (Tier V E)) (key : String)
    (fn : Except E V) (ttlSpec : Option (WrapTTL V)) : MultiWrapOut V E :=
  match findTier ts key with
  | none =>
    match fn with
    | .error e => ⟨.error e, ts, 1, []⟩
    | .ok result =>
      let cacheTTL := resolveTTL result ttlSpec
      ⟨.ok result,
        ts.map fun t => { t with store := storeSet t.store key result cacheTTL },
        1, []⟩
  | some (i, value) =>
    let cacheTTL := resolveTTL value ttlSpec
    ⟨.ok value, ts, 0,
      (List.range i).map (fun j => .backfill j key value cacheTTL)
        ++ [.rewrap i key]⟩

/-- Slot filling `val.forEach((v, i) => { if (values[i] === undefined && v !== undefined)
values[i] = v; })`: a slot already resolved keeps its value, an unresolved
slot takes the tier's answer. -/
def fillSlots {V : Type} (values vals : List (Option V)) : List (Option V) :=
  List.zipWith (fun cur v => match cur with | some x => some x | none => v)
    values vals

/-- The tier loop of `multiCaching(caches).getMany(...keys)`.  Returns the
result slots together with the trace of key lists passed to each queried
tier's `store.getMany` (the source always passes the full `...keys`; a tier
whose call throws was still queried).  The loop breaks before querying a
tier once every slot is defined. -/
def multiGetManyGo {V E : Type} (ts : List (Tier V E)) (keys : List String)
    (values : List (Option V)) : List (Option V) × List (List String) :=
  match ts with
  | [] => (values, [])
  | t :: rest =>
    if values.all (fun x => x.isSome) then (values, [])
    else
      match tierGetMany t keys with
      | .error _ =>
        let r := multiGetManyGo rest keys values
        (r.1, keys :: r.2)
      | .ok vals =>
        let r := multiGetManyGo rest keys (fillSlots values vals)
        (r.1, keys :: r.2)

/-- Tiered batch read `multiCaching(caches).getMany(...keys)`: slots start as
`new Array(keys.length).fill(undefined)`. -/
def multiGetMany {V E : Type} (ts : List (Tier V E)) (keys : List String) :
    List (Option V) × List (List String) :=
  multiGetManyGo ts keys (keys.map fun _ => none)

/-! ## LRU store (`createLruStore`, src/stores/lru.ts)

The wrapped `lru-cache` instance is modelled as an association list from key
to stored value and effective TTL, most recently written first (`lruCache.set`
makes the key most recently used).  `cloneDeep` is the identity on the pure
values of the embedding, so `shouldCloneBeforeSet` is not represented. -/

/-- Error thrown by the LRU store on an uncacheable value:
`new Error('no cacheable value ...')` carrying the offending value. -/
inductive LruErr (V : Type) where
  | noCacheable (v : V)
  deriving DecidableEq

/-- Effect of `lruCache.set(key, value, opt)` on the modelled entry list. -/
def lruCacheSet {V : Type} (m : List (String × V × Int)) (key : String)
    (v : V) (ttl : Int) : List (String × V × Int) :=
  (key, v, ttl) :: m.filter fun p => p.1 ≠ key

/-- Loop body of `setMany` (src/stores/lru.ts): walk the entries in order;
an uncacheable value throws immediately, leaving the mutations already made
in place; a cacheable one is written and the loop continues.  `effTtl` is
the precomputed `opt.ttl` (`ttl !== undefined ? ttl : lruOpts.ttl`). -/
def lruSetManyGo {V : Type} (isCacheable : V → Bool) (effTtl : Int)
    (m : List (String × V × Int)) (entries : List (String × V)) :
    List (String × V × Int) × Option (LruErr V) :=
  match entries with
  | [] => (m, none)
  | (k, v) :: rest =>
    if isCacheable v then
      lruSetManyGo isCacheable effTtl (lruCacheSet m k v effTtl) rest
    else (m, some (.noCacheable v))

/-- Store operation `setMany(args, ttl?)` of the LRU store: resolves the
effective TTL once (`ttl !== undefined ? ttl : lruOpts.ttl`) and runs the
write loop.  Returns the entry list after the mutations performed and the
error thrown, if any. -/
def lruSetMany {V : Type} (isCacheable : V → Bool) (defaultTtl : Int)
    (m : List (String × V × Int)) (entries : List (String × V))
    (ttl : Option Int) : List (String × V × Int) × Option (LruErr V) :=
  lruSetManyGo isCacheable (ttl.getD defaultTtl) m entries

/-- Lookup `lruCache.get(key)` on the modelled entry list. -/
def lruCacheGet {V : Type} (m : List (String × V × Int)) (key : String) :
    Option V :=
  (m.find? fun p => p.1 = key).map fun p => p.2.1

/-- Store operation `keys` of the LRU store.  The source implements it as
the nullary arrow `async () => [...lruCache.keys()]` although the Store
contract declares `keys(pattern?)`; under JS call semantics any pattern
argument passed is dropped, which the embedding renders by taking the
pattern and ignoring it. -/
def lruKeys {V : Type} (m : List (String × V × Int))
    (pat : Option String) : List String :=
  match pat with
  | _ => m.map fun p => p.1

/-! ## Helper notions and lemmas -/

/-- A tier that contributes nothing for `key` on the read path: its `get`
either throws or resolves to undefined. -/
def noHit {V E : Type} (t : Tier V E) (key : String) : Prop :=
  ∀ v : V, tierGet t key ≠ .ok (some v)

theorem multiGet_eq_none {V E : Type} {key : String} :
    ∀ {ts : List (Tier V E)}, (∀ t ∈ ts, noHit t key) →
      multiGet ts key = none := by
  intro ts
  induction ts with
  | nil => intro _; rfl
  | cons t rest ih =>
    intro h
    have ht := h t (List.mem_cons_self t rest)
    have hrest := ih fun t' ht' => h t' (List.mem_cons_of_mem _ ht')
    cases hg : tierGet t key with
    | error e => simpa [multiGet, hg] using hrest
    | ok ov =>
      cases ov with
      | none => simpa [multiGet, hg] using hrest
      | some v => exact absurd hg (ht v)

theorem multiGet_append_hit {V E : Type} {key : String} {t : Tier V E} {v : V}
    (post : List (Tier V E)) (ht : tierGet t key = .ok (some v)) :
    ∀ pre : List (Tier V E), (∀ t' ∈ pre, noHit t' key) →
      multiGet (pre ++ t :: post) key = some v := by
  intro pre
  induction pre with
  | nil => intro _; simp [multiGet, ht]
  | cons p ps ih =>
    intro h
    have hp := h p (List.mem_cons_self p ps)
    have hps := ih fun t' ht' => h t' (List.mem_cons_of_mem _ ht')
    cases hg : tierGet p key with
    | error e => simpa [multiGet, hg] using hps
    | ok ov =>
      cases ov with
      | none => simpa [multiGet, hg] using hps
      | some w => exact absurd hg (hp w)

theorem findTier_eq_none {V E : Type} {key : String} :
    ∀ {ts : List (Tier V E)}, (∀ t ∈ ts, noHit t key) →
      findTier ts key = none := by
  intro ts
  induction ts with
  | nil => intro _; rfl
  | cons t rest ih =>
    intro h
    have ht := h t (List.mem_cons_self t rest)
    have hrest := ih fun t' ht' => h t' (List.mem_cons_of_mem _ ht')
    cases hg : tierGet t key with
    | error e => simp [findTier, hg, hrest]
    | ok ov =>
      cases ov with
      | none => simp [findTier, hg, hrest]
      | some v => exact absurd hg (ht v)

theorem findTier_append_hit {V E : Type} {key : String} {t : Tier V E} {v : V}
    (post : List (Tier V E)) (ht : tierGet t key = .ok (some v)) :
    ∀ pre : List (Tier V E), (∀ t' ∈ pre, noHit t' key) →
      findTier (pre ++ t :: post) key = some (pre.length, v) := by
  intro pre
  induction pre with
  | nil => intro _; simp [findTier, ht]
  | cons p ps ih =>
    intro h
    have hp := h p (List.mem_cons_self p ps)
    have hps := ih fun t' ht' => h t' (List.mem_cons_of_mem _ ht')
    cases hg : tierGet p key with
    | error e => simp [findTier, hg, hps]
    | ok ov =>
      cases ov with
      | none => simp [findTier, hg, hps]
      | some w => exact absurd hg (hp w)

/-- Sample cold store used by the concrete witnesses. -/
def sampleStore : StoreState Nat :=
  ⟨fun _ => none, fun _ => 0, []⟩

/-- Sample store holding 0 at every key whose `ttl` reports `r`. -/
def hitStoreAt (r : Int) : StoreState Nat :=
  ⟨fun _ => some 0, fun _ => r, []⟩

/-! ## Claims -/

/-- C1: single-tier `wrap` on a cold key invokes the producer exactly once
in the foreground (spawning no background task), writes its result to the
store with the TTL resolved against that result, and returns it; a second
`wrap` call on the same key while the value is still cached (same cache, no
refresh threshold configured) invokes the producer zero additional times,
performs no store operation, and returns the previously cached value. -/
theorem C1_wrap_cold_once_then_cached {V E : Type} (rt : Option Int)
    (key : String) (r : V) (ttlSpec ttlSpec2 : Option (WrapTTL V))
    (fn2 : Except E V) (s : StoreState V) (hcold : s.data key = none) :
    (cachingWrap (E := E) rt key (.ok r) ttlSpec s).result = .ok r ∧
    (cachingWrap (E := E) rt key (.ok r) ttlSpec s).fgCalls = 1 ∧
    (cachingWrap (E := E) rt key (.ok r) ttlSpec s).bg = [] ∧
    (cachingWrap (E := E) rt key (.ok r) ttlSpec s).store.writes
      = s.writes ++ [(key, r, resolveTTL r ttlSpec)] ∧
    (cachingWrap (E := E) rt key (.ok r) ttlSpec s).store.data key = some r ∧
    (cachingWrap none key fn2 ttlSpec2
        (cachingWrap (E := E) rt key (.ok r) ttlSpec s).store).result = .ok r ∧
    (cachingWrap none key fn2 ttlSpec2
        (cachingWrap (E := E) rt key (.ok r) ttlSpec s).store).fgCalls = 0 ∧
    (cachingWrap none key fn2 ttlSpec2
        (cachingWrap (E := E) rt key (.ok r) ttlSpec s).store).bg = [] ∧
    (cachingWrap none key fn2 ttlSpec2
        (cachingWrap (E := E) rt key (.ok r) ttlSpec s).store).store
      = (cachingWrap (E := E) rt key (.ok r) ttlSpec s).store := by
  simp [cachingWrap, hcold, storeSet]

/-- Witness for C1 at a concrete cold store, key, producer and TTL. -/
theorem C1_witness :
    (cachingWrap (E := String) none "k" (.ok 7) (some (.ms 5))
        sampleStore).store.writes
      = sampleStore.writes ++ [("k", (7 : Nat), resolveTTL 7 (some (.ms 5)))] ∧
    (cachingWrap none "k" (Except.error "boom") none
        (cachingWrap (E := String) none "k" (.ok (7 : Nat)) (some (.ms 5))
          sampleStore).store).result = .ok 7 := by
  have h := C1_wrap_cold_once_then_cached (E := String) none "k" (7 : Nat)
    (some (.ms 5)) none (Except.error "boom") sampleStore rfl
  exact ⟨h.2.2.2.1, h.2.2.2.2.2.1⟩

/-- C2 counterexample: with refresh threshold 5 and a store reporting a
remaining TTL of -2 for a cached key — a negative value other than the
sentinel -1 — `wrap` does spawn the background refresh, contradicting the
claim that every negative remaining TTL suppresses refresh. -/
theorem C2_counterexample :
    (-2 : Int) < 0 ∧
    (cachingWrap (E := String) (some 5) "k" (.ok 1) none
        (hitStoreAt (-2))).bg = [⟨"k", none⟩] := by
  exact ⟨by norm_num, rfl⟩

/-- C2 amended: on a hit with a truthy refresh threshold `t`, the code
treats only the exact sentinel -1 as "do not refresh": a remaining TTL of
exactly -1 never spawns a refresh, while any other reported value (other
negative values included) spawns the background refresh exactly when it is
below `t`; the foreground call always returns the cached value without a
foreground producer invocation, whatever the producer is. -/
theorem C2_only_minus_one_suppresses_refresh {V E : Type} (t : Int)
    (key : String) (value : V) (fn : Except E V)
    (ttlSpec : Option (WrapTTL V)) (s : StoreState V)
    (ht : t ≠ 0) (hhit : s.data key = some value) :
    (cachingWrap (some t) key fn ttlSpec s).result = .ok value ∧
    (cachingWrap (some t) key fn ttlSpec s).fgCalls = 0 ∧
    (s.remTTL key = -1 → (cachingWrap (some t) key fn ttlSpec s).bg = []) ∧
    (s.remTTL key ≠ -1 → s.remTTL key < t →
      (cachingWrap (some t) key fn ttlSpec s).bg
        = [⟨key, resolveTTL value ttlSpec⟩]) ∧
    (¬ s.remTTL key < t → (cachingWrap (some t) key fn ttlSpec s).bg = []) := by
  by_cases hc : s.remTTL key ≠ -1 ∧ s.remTTL key < t
  · refine ⟨?_, ?_, ?_, ?_, ?_⟩ <;>
      simp [cachingWrap, hhit, ht, hc, hc.1, hc.2]
  · have hnb : (cachingWrap (some t) key fn ttlSpec s).bg = [] := by
      simp [cachingWrap, hhit, ht, hc]
    exact ⟨by simp [cachingWrap, hhit, ht, hc],
      by simp [cachingWrap, hhit, ht, hc],
      fun _ => hnb, fun h1 h2 => absurd ⟨h1, h2⟩ hc, fun _ => hnb⟩

/-- Witness for the amended C2 at threshold 5 with remaining TTL -1 (no
refresh spawned) on a concrete hit. -/
theorem C2_witness :
    (cachingWrap (E := String) (some 5) "k" (.ok 1) none
        (hitStoreAt (-1))).result = .ok 0 ∧
    ((hitStoreAt (-1)).remTTL "k" = -1 →
      (cachingWrap (E := String) (some 5) "k" (.ok 1) none
        (hitStoreAt (-1))).bg = []) := by
  have h := C2_only_minus_one_suppresses_refresh (E := String) 5 "k" (0 : Nat)
    (.ok 1) none (hitStoreAt (-1)) (by norm_num) rfl
  exact ⟨h.1, h.2.2.1⟩

theorem multiGetManyGo_cons_error {V E : Type} {t : Tier V E}
    {rest : List (Tier V E)} {keys : List String}
    {values : List (Option V)} {e : E}
    (hall : values.all (fun x => x.isSome) = false)
    (hg : tierGetMany t keys = .error e) :
    multiGetManyGo (t :: rest) keys values
      = ((multiGetManyGo rest keys values).1,
         keys :: (multiGetManyGo rest keys values).2) := by
  simp [multiGetManyGo, hall, hg]

theorem multiGetManyGo_cons_ok {V E : Type} {t : Tier V E}
    {rest : List (Tier V E)} {keys : List String}
    {values vals : List (Option V)}
    (hall : values.all (fun x => x.isSome) = false)
    (hg : tierGetMany t keys = .ok vals) :
    multiGetManyGo (t :: rest) keys values
      = ((multiGetManyGo rest keys (fillSlots values vals)).1,
         keys :: (multiGetManyGo rest keys (fillSlots values vals)).2) := by
  simp [multiGetManyGo, hall, hg]

theorem multiGetManyGo_stop {V E : Type} (t : Tier V E)
    (rest : List (Tier V E)) (keys : List String)
    (values : List (Option V))
    (hall : values.all (fun x => x.isSome) = true) :
    multiGetManyGo (t :: rest) keys values = (values, []) := by
  simp [multiGetManyGo, hall]

theorem multiGetManyGo_queries {V E : Type} (keys : List String) :
    ∀ (ts : List (Tier V E)) (values : List (Option V)),
      ∀ q ∈ (multiGetManyGo ts keys values).2, q = keys := by
  intro ts
  induction ts with
  | nil => intro values q hq; simp [multiGetManyGo] at hq
  | cons t rest ih =>
    intro values q hq
    cases hall : values.all (fun x => x.isSome) with
    | true =>
      rw [multiGetManyGo_stop t rest keys values hall] at hq
      simp at hq
    | false =>
      cases hg : tierGetMany t keys with
      | error e =>
        rw [multiGetManyGo_cons_error hall hg] at hq
        rcases List.mem_cons.mp hq with h1 | h1
        · exact h1
        · exact ih values q h1
      | ok vals =>
        rw [multiGetManyGo_cons_ok hall hg] at hq
        rcases List.mem_cons.mp hq with h1 | h1
        · exact h1
        · exact ih (fillSlots values vals) q h1

theorem fillSlots_keeps_resolved {V : Type} :
    ∀ (values vals : List (Option V)) (i : Nat) (x : V),
      values.length = vals.length → values[i]? = some (some x) →
      (fillSlots values vals)[i]? = some (some x) := by
  intro values
  induction values with
  | nil => intro vals i x _ h; simp at h
  | cons c cs ih =>
    intro vals i x hlen h
    cases vals with
    | nil => simp at hlen
    | cons v vs =>
      cases i with
      | zero =>
        simp at h
        simp [fillSlots, h]
      | succ n =>
        simp at h hlen
        simpa [fillSlots] using ih vs n x hlen h

/-- First sample tier: holds 1 at key k1, nothing else, reads succeed. -/
def tierA : Tier Nat String :=
  ⟨⟨fun k => if k = "k1" then some 1 else none, fun _ => 0, []⟩, none⟩

/-- Second sample tier: holds 2 at key k2, nothing else, reads succeed. -/
def tierB : Tier Nat String :=
  ⟨⟨fun k => if k = "k2" then some 2 else none, fun _ => 0, []⟩, none⟩

/-- A sample tier whose reads always throw. -/
def downTier : Tier Nat String :=
  ⟨⟨fun _ => none, fun _ => 0, []⟩, some "down"⟩

/-- C3 counterexample: requesting k1 and k2 where tier A holds only k1 and
tier B holds only k2, tier B's batch read is invoked with the full key list
including k1, which tier A had already resolved — not with the narrowed
list holding only k2 as the claim requires. -/
theorem C3_counterexample :
    (multiGetMany [tierA, tierB] ["k1", "k2"]).1 = [some 1, some 2] ∧
    (multiGetMany [tierA, tierB] ["k1", "k2"]).2
      = [["k1", "k2"], ["k1", "k2"]] ∧
    (["k1", "k2"] : List String) ≠ ["k2"] := by
  refine ⟨by rfl, by rfl, by simp⟩

/-- C3 amended: tiered `getMany` passes the full requested key list to
every tier it queries (never a narrowed unresolved subset), a slot already
resolved by a higher-priority tier keeps its value when a lower tier's
positionally aligned batch answer is merged, and the walk queries no
further tier once every slot is filled. -/
theorem C3_getMany_full_keys_stop_when_filled {V E : Type}
    (keys : List String) :
    (∀ ts : List (Tier V E), ∀ q ∈ (multiGetMany ts keys).2, q = keys) ∧
    (∀ (values vals : List (Option V)) (i : Nat) (x : V),
      values.length = vals.length → values[i]? = some (some x) →
      (fillSlots values vals)[i]? = some (some x)) ∧
    (∀ (t : Tier V E) (rest : List (Tier V E)) (values : List (Option V)),
      values.all (fun x => x.isSome) = true →
      multiGetManyGo (t :: rest) keys values = (values, [])) :=
  ⟨fun ts => multiGetManyGo_queries keys ts (keys.map fun _ => none),
   fun values vals i x hlen h => fillSlots_keeps_resolved values vals i x hlen h,
   fun t rest values hall => multiGetManyGo_stop t rest keys values hall⟩

/-- Witness for the amended C3: a resolved slot survives a merge, and a
fully resolved slot vector stops the walk before the next tier. -/
theorem C3_witness :
    (fillSlots (V := Nat) [some 1, none] [none, some 2])[0]? = some (some 1) ∧
    multiGetManyGo (E := String) [tierA, tierB] ["k1"] [some 5]
      = ([some 5], []) := by
  refine ⟨(C3_getMany_full_keys_stop_when_filled (E := String)
      ["k1", "k2"]).2.1 [some 1, none] [none, some 2] 0 1 rfl rfl,
    (C3_getMany_full_keys_stop_when_filled ["k1"]).2.2 tierA [tierB]
      [some 5] rfl⟩

/-- C4: tiered `get` walks the tier list in priority order and returns the
first defined value; a tier whose read throws contributes nothing and the
walk continues; when every tier throws or resolves to undefined, tiered
`get` resolves to undefined rather than propagating an error. -/
theorem C4_tiered_get_first_hit_swallow {V E : Type} (key : String) :
    (∀ ts : List (Tier V E), (∀ t ∈ ts, noHit t key) →
      multiGet ts key = none) ∧
    (∀ (pre post : List (Tier V E)) (t : Tier V E) (v : V),
      tierGet t key = .ok (some v) → (∀ t' ∈ pre, noHit t' key) →
      multiGet (pre ++ t :: post) key = some v) :=
  ⟨fun _ h => multiGet_eq_none h,
   fun pre post _ _ ht hpre => multiGet_append_hit post ht pre hpre⟩

/-- Witness for C4: a throwing tier followed by a holding tier yields the
held value; a list of only throwing tiers yields undefined. -/
theorem C4_witness :
    multiGet [downTier, tierA] "k1" = some 1 ∧
    multiGet [downTier] "k1" = none := by
  have h := C4_tiered_get_first_hit_swallow (V := Nat) (E := String) "k1"
  have hdown : ∀ t' ∈ [downTier], noHit t' "k1" := by
    intro t' ht' v hv
    simp only [List.mem_singleton] at ht'
    subst ht'
    simp [tierGet, downTier] at hv
  exact ⟨h.2 [downTier] [] tierA 1 rfl hdown, h.1 [downTier] hdown⟩

theorem tierB_noHit_k1 : ∀ t ∈ [tierB], noHit t "k1" := by
  intro t htm v hv
  simp only [List.mem_singleton] at htm
  subst htm
  rw [show tierGet tierB "k1" = Except.ok none from rfl] at hv
  simp at hv

/-- C5: tiered `wrap` on a key found in no tier invokes the producer once
in the foreground; on success it resolves the TTL against the produced
result, writes that result with that TTL to every tier, and returns it; a
producer failure propagates as the call's outcome and leaves every tier
unwritten. -/
theorem C5_tiered_wrap_miss {V E : Type} (ts : List (Tier V E))
    (key : String) (ttlSpec : Option (WrapTTL V))
    (hmiss : ∀ t ∈ ts, noHit t key) :
    (∀ r : V,
      (multiWrap ts key (.ok r) ttlSpec).result = .ok r ∧
      (multiWrap ts key (.ok r) ttlSpec).fgCalls = 1 ∧
      (multiWrap ts key (.ok r) ttlSpec).bg = [] ∧
      (multiWrap ts key (.ok r) ttlSpec).tiers
        = ts.map fun t =>
            { t with store := storeSet t.store key r (resolveTTL r ttlSpec) }) ∧
    (∀ e : E,
      (multiWrap ts key (.error e) ttlSpec).result = .error e ∧
      (multiWrap ts key (.error e) ttlSpec).fgCalls = 1 ∧
      (multiWrap ts key (.error e) ttlSpec).bg = [] ∧
      (multiWrap ts key (.error e) ttlSpec).tiers = ts) := by
  have hf := findTier_eq_none hmiss
  constructor
  · intro r
    refine ⟨?_, ?_, ?_, ?_⟩ <;> simp [multiWrap, hf]
  · intro e
    refine ⟨?_, ?_, ?_, ?_⟩ <;> simp [multiWrap, hf]

/-- Witness for C5: a miss over one tier produces the producer's value, and
a failing producer leaves the tier list unchanged. -/
theorem C5_witness :
    (multiWrap [tierB] "k1" (.ok 9) (some (.ms 3))).result = .ok 9 ∧
    (multiWrap [tierB] "k1" (Except.error "fail") none).tiers = [tierB] := by
  exact ⟨((C5_tiered_wrap_miss [tierB] "k1" (some (.ms 3))
          tierB_noHit_k1).1 9).1,
    ((C5_tiered_wrap_miss [tierB] "k1" none tierB_noHit_k1).2 "fail").2.2.2⟩

/-- C6: when tiered `wrap` finds a defined value at tier index i, it
returns that value with the foreground tier states untouched (neither
background action is awaited) and no foreground producer invocation; the
spawned background tasks are exactly the backfills of the tiers with index
strictly below i — each writing the found value at the TTL resolved
against it — together with the re-wrap of tier i itself; in particular
every spawned backfill targets an index below i, so no tier at an index
above i is written on this path. -/
theorem C6_tiered_wrap_hit_backfill {V E : Type} (ts : List (Tier V E))
    (key : String) (fn : Except E V) (ttlSpec : Option (WrapTTL V))
    (i : Nat) (value : V)
    (hfound : findTier ts key = some (i, value)) :
    (multiWrap ts key fn ttlSpec).result = .ok value ∧
    (multiWrap ts key fn ttlSpec).tiers = ts ∧
    (multiWrap ts key fn ttlSpec).fgCalls = 0 ∧
    (multiWrap ts key fn ttlSpec).bg
      = (List.range i).map
          (fun j => .backfill j key value (resolveTTL value ttlSpec))
        ++ [.rewrap i key] ∧
    (∀ j k2 v2 ttl2,
      MultiBgTask.backfill j k2 v2 ttl2 ∈ (multiWrap ts key fn ttlSpec).bg →
      j < i ∧ k2 = key ∧ v2 = value ∧ ttl2 = resolveTTL value ttlSpec) := by
  have hbg : (multiWrap ts key fn ttlSpec).bg
      = (List.range i).map
          (fun j => .backfill j key value (resolveTTL value ttlSpec))
        ++ [.rewrap i key] := by
    simp [multiWrap, hfound]
  refine ⟨by simp [multiWrap, hfound], by simp [multiWrap, hfound],
    by simp [multiWrap, hfound], hbg, ?_⟩
  intro j k2 v2 ttl2 hmem
  rw [hbg] at hmem
  rcases List.mem_append.mp hmem with h | h
  · obtain ⟨a, ha, heq⟩ := List.mem_map.mp h
    injection heq with e1 e2 e3 e4
    subst e1; subst e2; subst e3; subst e4
    exact ⟨List.mem_range.mp ha, rfl, rfl, rfl⟩
  · simp at h

/-- Witness for C6: a value found at tier index 1 of two tiers is returned,
and the spawned tasks are the backfill of tier 0 plus the re-wrap of
tier 1. -/
theorem C6_witness :
    (multiWrap [tierA, tierB] "k2" (Except.ok 0) none).result = .ok 2 ∧
    (multiWrap [tierA, tierB] "k2" (Except.ok 0) none).bg
      = [.backfill 0 "k2" 2 none, .rewrap 1 "k2"] := by
  have h := C6_tiered_wrap_hit_backfill [tierA, tierB] "k2"
    (Except.ok 0) none 1 2 rfl
  refine ⟨h.1, ?_⟩
  rw [h.2.2.2.1]
  rfl

/-- C7: when the producer fails on a key absent from the cache, both
single-tier and tiered `wrap` fail with that same error and issue no store
write: the single-tier store state, and every tier's state, are unchanged,
and no background task is spawned. -/
theorem C7_producer_failure_no_write {V E : Type} (key : String) (e : E)
    (ttlSpec : Option (WrapTTL V)) :
    (∀ (rt : Option Int) (s : StoreState V), s.data key = none →
      (cachingWrap rt key (.error e) ttlSpec s).result = .error e ∧
      (cachingWrap rt key (.error e) ttlSpec s).store = s ∧
      (cachingWrap rt key (.error e) ttlSpec s).bg = []) ∧
    (∀ ts : List (Tier V E), (∀ t ∈ ts, noHit t key) →
      (multiWrap ts key (.error e) ttlSpec).result = .error e ∧
      (multiWrap ts key (.error e) ttlSpec).tiers = ts ∧
      (multiWrap ts key (.error e) ttlSpec).bg = []) := by
  constructor
  · intro rt s hcold
    refine ⟨?_, ?_, ?_⟩ <;> simp [cachingWrap, hcold]
  · intro ts hmiss
    have hf := findTier_eq_none hmiss
    refine ⟨?_, ?_, ?_⟩ <;> simp [multiWrap, hf]

/-- Witness for C7: a failing producer on a cold key propagates its error
through single-tier `wrap` and leaves a tier list unchanged through tiered
`wrap`. -/
theorem C7_witness :
    (cachingWrap (V := Nat) none "k" (Except.error "boom") none
        sampleStore).result = .error "boom" ∧
    (multiWrap (V := Nat) [tierB] "k1" (Except.error "boom") none).tiers
      = [tierB] := by
  have h := C7_producer_failure_no_write (V := Nat) "k" "boom" none
  have h2 := C7_producer_failure_no_write (V := Nat) "k1" "boom" none
  exact ⟨(h.1 none sampleStore rfl).1, (h2.2 [tierB] tierB_noHit_k1).2.1⟩

/-- C8 amended: when a hit's remaining TTL is below the configured
threshold, the foreground call returns the cached value whatever the
producer does — a background-producer failure is never surfaced to any
`wrap` caller — but the spawned task attaches no failure handler: on
producer failure it leaves the store untouched and emits no diagnostic
output, so the failure is discarded silently rather than logged. -/
theorem C8_background_failure_silent {V E : Type} (t : Int) (key : String)
    (value : V) (ttlSpec : Option (WrapTTL V)) (s : StoreState V)
    (ht : t ≠ 0) (hhit : s.data key = some value)
    (htrig : s.remTTL key ≠ -1 ∧ s.remTTL key < t) :
    (∀ fn : Except E V,
      (cachingWrap (some t) key fn ttlSpec s).result = .ok value ∧
      (cachingWrap (some t) key fn ttlSpec s).bg
        = [⟨key, resolveTTL value ttlSpec⟩]) ∧
    (∀ err : E,
      runRefresh (.error err) ⟨key, resolveTTL value ttlSpec⟩ s = (s, [])) := by
  constructor
  · intro fn
    constructor <;> simp [cachingWrap, hhit, ht, htrig, htrig.1, htrig.2]
  · intro err
    rfl

/-- C8 counterexample: a concrete hit (cached value 0, remaining TTL 1,
threshold 5) where `wrap` spawns the refresh and still returns the cached
value although the producer fails; running the spawned task with that
failing producer leaves the store untouched and its diagnostic trace empty
— the failure is silently discarded, contradicting the claim that it is at
minimum observable to an operator. -/
theorem C8_counterexample :
    (cachingWrap (E := String) (some 5) "k" (Except.error "boom") none
        (hitStoreAt 1)).result = .ok 0 ∧
    (cachingWrap (E := String) (some 5) "k" (Except.error "boom") none
        (hitStoreAt 1)).bg = [⟨"k", none⟩] ∧
    (runRefresh (V := Nat) (Except.error "boom")
        (⟨"k", none⟩ : RefreshTask) (hitStoreAt 1)).2 = [] :=
  ⟨rfl, rfl, rfl⟩

/-- Witness for the amended C8 at threshold 5, remaining TTL 1, concrete
producers. -/
theorem C8_witness :
    (cachingWrap (E := String) (some 5) "k" (Except.ok 3) none
        (hitStoreAt 1)).result = .ok 0 ∧
    runRefresh (V := Nat) (Except.error "x") (⟨"k", none⟩ : RefreshTask)
        (hitStoreAt 1) = (hitStoreAt 1, []) := by
  have h := C8_background_failure_silent (E := String) 5 "k" (0 : Nat) none
    (hitStoreAt 1) (by norm_num) rfl ⟨by decide, by decide⟩
  exact ⟨(h.1 (.ok 3)).1, h.2 "x"⟩

theorem lruSetManyGo_first_uncacheable {V : Type} (isCacheable : V → Bool)
    (effTtl : Int) :
    ∀ (entries : List (String × V)) (k : Nat) (m : List (String × V × Int))
      (hk : k < entries.length),
      (∀ j (hj : j < k), isCacheable (entries.get ⟨j, hj.trans hk⟩).2 = true) →
      isCacheable (entries.get ⟨k, hk⟩).2 = false →
      lruSetManyGo isCacheable effTtl m entries
        = ((entries.take k).foldl
            (fun acc e => lruCacheSet acc e.1 e.2 effTtl) m,
           some (.noCacheable (entries.get ⟨k, hk⟩).2)) := by
  intro entries
  induction entries with
  | nil =>
    intro k m hk
    exact absurd hk (Nat.not_lt_zero k)
  | cons e rest ih =>
    intro k m hk hpre hbad
    obtain ⟨ek, ev⟩ := e
    cases k with
    | zero =>
      have hb : isCacheable ev = false := hbad
      simp [lruSetManyGo, hb]
    | succ n =>
      have he : isCacheable ev = true := hpre 0 (Nat.succ_pos n)
      have step : lruSetManyGo isCacheable effTtl m ((ek, ev) :: rest)
          = lruSetManyGo isCacheable effTtl
              (lruCacheSet m ek ev effTtl) rest := by
        simp [lruSetManyGo, he]
      rw [step, ih n (lruCacheSet m ek ev effTtl)
        (Nat.lt_of_succ_lt_succ hk)
        (fun j hj => hpre (j + 1) (Nat.succ_lt_succ hj)) hbad]
      rfl

/-- C9: LRU `setMany` is not atomic on error: when the first uncacheable
value of the entry list sits at position k, the call throws the "no
cacheable value" error carrying that value, every entry before position k
has been written to the cache, and no entry at position k or later has
been written — the resulting state is exactly the initial state with the
first k entries written, each at the effective TTL. -/
theorem C9_lru_setMany_partial {V : Type} (isCacheable : V → Bool)
    (defaultTtl : Int) (ttl : Option Int) (m : List (String × V × Int))
    (entries : List (String × V)) (k : Nat) (hk : k < entries.length)
    (hpre : ∀ j (hj : j < k),
      isCacheable (entries.get ⟨j, hj.trans hk⟩).2 = true)
    (hbad : isCacheable (entries.get ⟨k, hk⟩).2 = false) :
    lruSetMany isCacheable defaultTtl m entries ttl
      = ((entries.take k).foldl
          (fun acc e => lruCacheSet acc e.1 e.2 (ttl.getD defaultTtl)) m,
         some (.noCacheable (entries.get ⟨k, hk⟩).2)) :=
  lruSetManyGo_first_uncacheable isCacheable (ttl.getD defaultTtl)
    entries k m hk hpre hbad

/-- Witness for C9: with cacheability rejecting 0, writing a, b, c where b
holds 0 throws the uncacheable error, has written a, and has not written
b or c. -/
theorem C9_witness :
    lruSetMany (fun v => v != 0) 0 ([] : List (String × Nat × Int))
        [("a", 1), ("b", 0), ("c", 2)] (some 5)
      = ([("a", 1, 5)], some (.noCacheable 0)) := by
  have hk : (1 : Nat)
      < ([("a", 1), ("b", 0), ("c", 2)] : List (String × Nat)).length := by
    norm_num
  have hpre : ∀ j (hj : j < 1), (fun v => v != 0)
      (([("a", 1), ("b", 0), ("c", 2)] : List (String × Nat)).get
        ⟨j, hj.trans hk⟩).2 = true := by
    intro j hj
    have hj0 : j = 0 := by omega
    subst hj0
    simp
  have hbad : (fun v => v != 0)
      (([("a", 1), ("b", 0), ("c", 2)] : List (String × Nat)).get
        ⟨1, hk⟩).2 = false := by
    simp
  have h := C9_lru_setMany_partial (fun v => v != 0) 0 (some 5) []
    [("a", 1), ("b", 0), ("c", 2)] 1 hk hpre hbad
  simpa using h

/-- C10: the LRU store's `keys` ignores its pattern argument entirely: for
every pattern, `keys(pattern)` returns the same list as `keys()` — the
keys of all entries currently stored, a key being listed exactly when the
store holds a value for it. -/
theorem C10_lru_keys_ignores_pattern {V : Type}
    (m : List (String × V × Int)) (pat : String) :
    lruKeys m (some pat) = lruKeys m none ∧
    lruKeys m none = m.map (fun p => p.1) ∧
    ∀ k : String, k ∈ lruKeys m none ↔ (lruCacheGet m k).isSome := by
  refine ⟨rfl, rfl, ?_⟩
  intro k
  constructor
  · intro hk
    obtain ⟨p, hp, hpk⟩ := List.mem_map.mp hk
    have hfind : (m.find? fun q => q.1 = k).isSome := by
      rw [List.find?_isSome]
      exact ⟨p, hp, by simpa using hpk⟩
    simpa [lruCacheGet, Option.isSome_map'] using hfind
  · intro hk
    have hfind : (m.find? fun q => q.1 = k).isSome := by
      simpa [lruCacheGet, Option.isSome_map'] using hk
    rw [List.find?_isSome] at hfind
    obtain ⟨p, hp, hpk⟩ := hfind
    exact List.mem_map.mpr ⟨p, hp, by simpa using hpk⟩

/-- Witness for C10 on a concrete one-entry store and pattern. -/
theorem C10_witness :
    lruKeys [("a", (1 : Nat), (0 : Int))] (some "pat")
      = lruKeys [("a", (1 : Nat), (0 : Int))] none :=
  (C10_lru_keys_ignores_pattern [("a", (1 : Nat), (0 : Int))] "pat").1

end Polycache
